import Mathlib

/-!
Verification of the differentiable-operator layer `tinygrad/ops/ops_gpu.py`.

The file shallowly embeds the operator classes of the module (unary ops,
reductions, elementwise binary ops, movement ops, matmul, conv2d) over a
symbolic model of the device buffer layer.  Shapes are lists of integers
(Python ints; Python floor division `//` is `Int.fdiv`).  A device buffer is
modelled as its shape together with a symbolic expression recording which
device primitive produced its contents.  Fallible Python paths (assert,
raise, tuple destructuring, list indexing, `list(None)`) are modelled with
`Except String`.
-/

namespace TinyGrad

/-- Packed kernel arguments of the conv family, the 12-tuple
`H, W, groups, rcout, cin, oy, ox, iy, ix, ys, xs, bs` built by
`Conv2D.forward` and `Conv2D.backward`. -/
structure ConvArgs where
  H : Int
  W : Int
  groups : Int
  rcout : Int
  cin : Int
  oy : Int
  ox : Int
  iy : Int
  ix : Int
  ys : Int
  xs : Int
  bs : Int
deriving DecidableEq, Repr

/-- Symbolic contents of a device buffer: which device primitive (if any)
produced it, applied to which arguments.  `input` is an external input
buffer, `fresh` a newly allocated (uninitialised) buffer. -/
inductive Expr where
  | input (id : Nat)
  | fresh
  | unary (code : String) (a : Expr)
  | binary (code : String) (a b : Expr)
  | reduce (code : String) (a : Expr) (start : String)
  | perm (a : Expr) (order : List Int)
  | islice (a : Expr) (arg : List (Int × Int))
  | mm (a b : Expr) (transpose_a transpose_b : Bool)
  | convF (x w : Expr) (args : ConvArgs)
  | convDW (x g : Expr) (args : ConvArgs)
  | convDX (w g : Expr) (args : ConvArgs)
deriving DecidableEq, Repr

/-- A device buffer: a shape plus the symbolic trace of its contents
(`GPUBuffer` from `llops.opencl`, imported as `Buffer`). -/
structure GPUBuffer where
  shape : List Int
  data : Expr
deriving DecidableEq, Repr

/-- Embeds `Buffer(shape)`: allocate an uninitialised buffer of the given shape. -/
def Buffer (shape : List Int) : GPUBuffer := ⟨shape, Expr.fresh⟩

/-- Embeds `Buffer(shape, hostbuf=x)`: a buffer of the given shape sharing `x`'s
storage (not a copy). -/
def Buffer.hostbuf (shape : List Int) (x : GPUBuffer) : GPUBuffer := ⟨shape, x.data⟩

/-- Modelled from the spec: the device primitive `unary_op` of
`llops.opencl` (not part of this source slice) applies the elementwise
expression `code` to `input`, writes into `ret` and returns it. -/
def unary_op (code : String) (input ret : GPUBuffer) : GPUBuffer :=
  ⟨ret.shape, Expr.unary code input.data⟩

/-- Modelled from the spec: the device primitive `binary_op` applies the
elementwise expression `code` to `a` and `b`, writes into `ret` and
returns it. -/
def binary_op (code : String) (a b ret : GPUBuffer) : GPUBuffer :=
  ⟨ret.shape, Expr.binary code a.data b.data⟩

/-- Modelled from the spec: the device primitive `reduce_op` reduces `a`
into the (smaller) buffer `ret` with accumulation expression `code` and
initial accumulator `start`, and returns `ret`. -/
def reduce_op (code : String) (a ret : GPUBuffer) (start : String) : GPUBuffer :=
  ⟨ret.shape, Expr.reduce code a.data start⟩

/-- Modelled from the spec: the device primitive `perm_axis` permutes the
axes of `x` by `order` into `ret` and returns it. -/
def perm_axis (x : GPUBuffer) (order : List Int) (ret : GPUBuffer) : GPUBuffer :=
  ⟨ret.shape, Expr.perm x.data order⟩

/-- Modelled from the spec: the device primitive `inner_slice` slices `x`
by the per-axis bounds `arg` into `ret` and returns it. -/
def inner_slice (x : GPUBuffer) (arg : List (Int × Int)) (ret : GPUBuffer) : GPUBuffer :=
  ⟨ret.shape, Expr.islice x.data arg⟩

/-- Modelled from the spec: the device primitive `matmul` multiplies
`input` by `weight` (optionally transposing either operand) into `ret`
and returns it. -/
def matmul (input weight ret : GPUBuffer) (transpose_a transpose_b : Bool) : GPUBuffer :=
  ⟨ret.shape, Expr.mm input.data weight.data transpose_a transpose_b⟩

/-- Modelled from the spec: the forward convolution kernel `conv`. -/
def conv (x w ret : GPUBuffer) (args : ConvArgs) : GPUBuffer :=
  ⟨ret.shape, Expr.convF x.data w.data args⟩

/-- Modelled from the spec: the weight-gradient convolution kernel
`convdw`. -/
def convdw (x grad_output ret : GPUBuffer) (args : ConvArgs) : GPUBuffer :=
  ⟨ret.shape, Expr.convDW x.data grad_output.data args⟩

/-- Modelled from the spec: the input-gradient convolution kernel
`convdx`. -/
def convdx (w grad_output ret : GPUBuffer) (args : ConvArgs) : GPUBuffer :=
  ⟨ret.shape, Expr.convDX w.data grad_output.data args⟩

/-- Modelled from the spec: `binary_broadcast` of `tinygrad.helpers` (not
part of this source slice) computes the numpy broadcast of two shapes:
the shorter shape is left-padded with 1s and corresponding dimensions are
combined with `max`. -/
def binary_broadcast (sx sy : List Int) : List Int :=
  let n := max sx.length sy.length
  List.zipWith max (List.replicate (n - sx.length) 1 ++ sx)
    (List.replicate (n - sy.length) 1 ++ sy)

/-- Python list comprehension over `l` applying the fallible `f` left to
right, propagating the first raised exception. -/
def mapExcept (f : α → Except String β) : List α → Except String (List β)
  | [] => Except.ok []
  | a :: l => do
    let b ← f a
    let bs ← mapExcept f l
    Except.ok (b :: bs)

/-- Python sequence indexing `l[i]`: negative indices count from the end,
out-of-range indices raise `IndexError`. -/
def pyGet (l : List Int) (i : Int) : Except String Int :=
  if 0 ≤ i ∧ i < l.length then Except.ok (l.getD i.toNat 0)
  else if -(l.length : Int) ≤ i ∧ i < 0 then Except.ok (l.getD (i + l.length).toNat 0)
  else Except.error "IndexError: list index out of range"

/-- numpy integer array indexing: normalise index `i` into an array of
length `n` (negative indices wrap), raising `IndexError` out of range. -/
def npIdx (n : Nat) (i : Int) : Except String Nat :=
  if 0 ≤ i ∧ i < n then Except.ok i.toNat
  else if -(n : Int) ≤ i ∧ i < 0 then Except.ok (i + n).toNat
  else Except.error "IndexError: index out of bounds"

/-- Embeds `np.prod` over a shape (product of the entries, 1 for the empty
shape). -/
def prod (l : List Int) : Int := l.foldl (· * ·) 1

/-- Embeds `np.argsort`: the list of indices that sorts `xs` by value
(stable sort of `0, ..., len-1` comparing the indexed values). -/
def argsort (xs : List Int) : List Nat :=
  List.insertionSort (fun i j => xs.getD i 0 ≤ xs.getD j 0) (List.range xs.length)

-- ************* unary ops *************

/-- Embeds `UnaryOp.forward`: saves the input and applies the subclass's forward
expression `fop` elementwise.  Returns (saved tensors, result). -/
def UnaryOp.forward (fop : String) (input : GPUBuffer) : GPUBuffer × GPUBuffer :=
  (input, unary_op fop input (Buffer input.shape))

/-- Embeds `UnaryOp.backward`: applies the subclass's backward expression `bop`
to the saved input and the incoming gradient. -/
def UnaryOp.backward (bop : String) (saved : GPUBuffer) (grad_output : GPUBuffer) : GPUBuffer :=
  binary_op bop saved grad_output (Buffer saved.shape)

def ReLU.fop : String := "max(a, (float)0.)"

def ReLU.bop : String := "b * (a >= 0)"

def Log.fop : String := "log(a)"

def Log.bop : String := "b / a"

def Exp.fop : String := "exp(a)"

def Exp.bop : String := "b * exp(a)"

def ReLU.forward (input : GPUBuffer) : GPUBuffer × GPUBuffer := UnaryOp.forward ReLU.fop input

def Log.forward (input : GPUBuffer) : GPUBuffer × GPUBuffer := UnaryOp.forward Log.fop input

def Exp.forward (input : GPUBuffer) : GPUBuffer × GPUBuffer := UnaryOp.forward Exp.fop input

-- ************* reduce ops *************

/-- Embeds `reduce_shape(shape, axis)`: `osize = np.array(shape); osize[list(axis)] = 1`.
With `axis=None`, `list(None)` raises `TypeError`; otherwise every index in
`axis` (Python negative indexing allowed) is set to 1. -/
def reduce_shape (shape : List Int) : Option (List Int) → Except String (List Int)
  | none => throw "TypeError: NoneType object is not iterable"
  | some ax => do
    let idxs ← mapExcept (npIdx shape.length) ax
    Except.ok ((List.range shape.length).map (fun j => if j ∈ idxs then 1 else shape.getD j 0))

/-- Embeds `Sum.forward`: saves the input shape and reduce-sums into a buffer of
the keepdims-reduced shape.  (`reduce_op`'s default accumulator start is
its device-side default, written "0.0" here.) -/
def Sum.forward (input : GPUBuffer) (axis : Option (List Int)) :
    Except String (List Int × GPUBuffer) := do
  let os ← reduce_shape input.shape axis
  Except.ok (input.shape, reduce_op "out += a" input (Buffer os) "0.0")

/-- Embeds `Sum.backward`: broadcast the gradient back to the saved input shape
(the second operand buffer is unused, it only fixes the shape). -/
def Sum.backward (saved : List Int) (grad_output : GPUBuffer) : GPUBuffer :=
  let ret := Buffer saved
  binary_op "a" grad_output ret ret

/-- Embeds `Max.forward`: reduce-max into the keepdims-reduced shape, saving
`(input, axis, ret)`. -/
def Max.forward (input : GPUBuffer) (axis : Option (List Int)) :
    Except String ((GPUBuffer × Option (List Int) × GPUBuffer) × GPUBuffer) := do
  let os ← reduce_shape input.shape axis
  let ret := reduce_op "out = max(a,out)" input (Buffer os) "-INFINITY"
  Except.ok ((input, axis, ret), ret)

/-- Embeds `Max.backward`: mask of argmax positions, normalised by their count,
times the gradient. -/
def Max.backward (saved : GPUBuffer × Option (List Int) × GPUBuffer)
    (grad_output : GPUBuffer) : Except String GPUBuffer := do
  let input := saved.1
  let axis := saved.2.1
  let ret := saved.2.2
  let ret2 := binary_op "1.0*(a==b)" input ret (Buffer input.shape)
  let rs ← reduce_shape ret2.shape axis
  let div := reduce_op "out += a" ret2 (Buffer rs) "1e-10"
  let ret2b := binary_op "a/b" ret2 div ret2
  Except.ok (binary_op "a*b" ret2b grad_output ret2b)

-- ************* binary ops *************

/-- Embeds `unbroadcast(out, in_sh)`: reduce-sum `out` down to shape `in_sh`. -/
def unbroadcast (out : GPUBuffer) (in_sh : List Int) : GPUBuffer :=
  reduce_op "out += a" out (Buffer in_sh) "0.0"

/-- Embeds `Add.forward`: saves both shapes; elementwise `a+b` into the broadcast
shape. -/
def Add.forward (x y : GPUBuffer) : (List Int × List Int) × GPUBuffer :=
  ((x.shape, y.shape), binary_op "a+b" x y (Buffer (binary_broadcast x.shape y.shape)))

/-- Embeds `Add.backward`: unbroadcast the gradient to each saved input shape,
gated by `needs_input_grad`. -/
def Add.backward (needs_input_grad : Bool × Bool) (saved : List Int × List Int)
    (grad_output : GPUBuffer) : Option GPUBuffer × Option GPUBuffer :=
  (if needs_input_grad.1 then some (unbroadcast grad_output saved.1) else none,
   if needs_input_grad.2 then some (unbroadcast grad_output saved.2) else none)

/-- Embeds `Sub.forward`: saves both shapes; elementwise `a-b` into the broadcast
shape. -/
def Sub.forward (x y : GPUBuffer) : (List Int × List Int) × GPUBuffer :=
  ((x.shape, y.shape), binary_op "a-b" x y (Buffer (binary_broadcast x.shape y.shape)))

/-- Embeds `Sub.backward`: gradient for `x` is the unbroadcast gradient; for `y`
the elementwise negation, unbroadcast. -/
def Sub.backward (needs_input_grad : Bool × Bool) (saved : List Int × List Int)
    (grad_output : GPUBuffer) : Option GPUBuffer × Option GPUBuffer :=
  (if needs_input_grad.1 then some (unbroadcast grad_output saved.1) else none,
   if needs_input_grad.2 then
     some (unbroadcast (unary_op "-a" grad_output (Buffer grad_output.shape)) saved.2)
   else none)

/-- Embeds `Mul.forward`: saves both inputs; elementwise `a*b` into the broadcast
shape. -/
def Mul.forward (x y : GPUBuffer) : (GPUBuffer × GPUBuffer) × GPUBuffer :=
  ((x, y), binary_op "a*b" x y (Buffer (binary_broadcast x.shape y.shape)))

/-- Embeds `Mul.backward`: each gradient is the other operand times the incoming
gradient, unbroadcast to the operand's shape. -/
def Mul.backward (needs_input_grad : Bool × Bool) (saved : GPUBuffer × GPUBuffer)
    (grad_output : GPUBuffer) : Option GPUBuffer × Option GPUBuffer :=
  let x := saved.1
  let y := saved.2
  let tmp := Buffer grad_output.shape
  (if needs_input_grad.1 then some (unbroadcast (binary_op "a*b" y grad_output tmp) x.shape)
   else none,
   if needs_input_grad.2 then some (unbroadcast (binary_op "a*b" x grad_output tmp) y.shape)
   else none)

/-- Embeds `Pow.forward`: saves both inputs; elementwise `pow(a,b)` into the
broadcast shape. -/
def Pow.forward (x y : GPUBuffer) : (GPUBuffer × GPUBuffer) × GPUBuffer :=
  ((x, y), binary_op "pow(a,b)" x y (Buffer (binary_broadcast x.shape y.shape)))

/-- Embeds `Pow.backward`: the analytic power-rule gradients, unbroadcast to the
operand shapes. -/
def Pow.backward (needs_input_grad : Bool × Bool) (saved : GPUBuffer × GPUBuffer)
    (grad_output : GPUBuffer) : Option GPUBuffer × Option GPUBuffer :=
  let x := saved.1
  let y := saved.2
  let tmp := Buffer grad_output.shape
  (if needs_input_grad.1 then
     some (unbroadcast
       (binary_op "a*b" grad_output (binary_op "b * pow(a, b-1.0f)" x y tmp) tmp) x.shape)
   else none,
   if needs_input_grad.2 then
     some (unbroadcast
       (binary_op "a*b" grad_output (binary_op "log(a) * pow(a, b)" x y tmp) tmp) y.shape)
   else none)

-- ************* movement ops *************

/-- Embeds `Reshape.forward`: resolve a single `-1` dimension by Python floor
division, return a zero-copy buffer over `x`'s storage, and assert the
element counts match. -/
def Reshape.forward (x : GPUBuffer) (shape : List Int) :
    Except String (List Int × GPUBuffer) := do
  let shape2 := shape.map (fun s => if s = -1 then (-(prod x.shape)).fdiv (prod shape) else s)
  let r := Buffer.hostbuf shape2 x
  if prod x.shape = prod r.shape then Except.ok (x.shape, r)
  else throw "AssertionError"

/-- Embeds `Reshape.backward`: zero-copy view of the gradient with the saved
input shape. -/
def Reshape.backward (saved : List Int) (grad_output : GPUBuffer) : GPUBuffer :=
  Buffer.hostbuf saved grad_output

/-- Embeds `Transpose.forward`: saves `order`, builds the output buffer of shape
`[x.shape[i] for i in order]`, and permutes the axes. -/
def Transpose.forward (x : GPUBuffer) (order : List Int) :
    Except String (List Int × GPUBuffer) := do
  let osh ← mapExcept (pyGet x.shape) order
  Except.ok (order, perm_axis x order (Buffer osh))

/-- Embeds `Transpose.backward`: permutes the gradient by `np.argsort(order)`,
the inverse permutation. -/
def Transpose.backward (order : List Int) (grad_output : GPUBuffer) :
    Except String GPUBuffer := do
  let norder := (argsort order).map Int.ofNat
  let nsh ← mapExcept (pyGet grad_output.shape) norder
  Except.ok (perm_axis grad_output norder (Buffer nsh))

/-- Embeds `Slice.forward`: saves `x.shape` and slices by the per-axis bounds in
`arg` into a buffer of shape `[y[1]-y[0] for y in arg]`. -/
def Slice.forward (x : GPUBuffer) (arg : List (Int × Int)) :
    Except String (List Int × GPUBuffer) :=
  Except.ok (x.shape, inner_slice x arg (Buffer (arg.map (fun y => y.2 - y.1))))

/-- Embeds `Slice.backward`: grows the gradient back to the saved shape by
slicing with complemented bounds. -/
def Slice.backward (saved : List Int) (arg : List (Int × Int))
    (grad_output : GPUBuffer) : Except String GPUBuffer := do
  let narg ← mapExcept (fun ip => do
      let g ← pyGet grad_output.shape (Int.ofNat ip.1)
      let s ← pyGet saved (Int.ofNat ip.1)
      Except.ok ((0 - ip.2.1, g + (s - ip.2.2)) : Int × Int))
    arg.enum
  Except.ok (inner_slice grad_output narg (Buffer (narg.map (fun y => y.2 - y.1))))

-- ************* processing ops *************

/-- Embeds `Matmul.forward`: asserts `input.shape[-1] == weight.shape[-2]`, saves
both operands, and multiplies into a buffer of shape
`input.shape[0:-1] + [weight.shape[-1]]`. -/
def Matmul.forward (input weight : GPUBuffer) :
    Except String ((GPUBuffer × GPUBuffer) × GPUBuffer) := do
  let a ← pyGet input.shape (-1)
  let b ← pyGet weight.shape (-2)
  if a = b then do
    let wl ← pyGet weight.shape (-1)
    let ret := Buffer (input.shape.dropLast ++ [wl])
    Except.ok ((input, weight), matmul input weight ret false false)
  else throw "AssertionError"

/-- Embeds `Matmul.backward`: `grad_input = matmul(grad_output, weight,
transpose_b=True)` into a buffer of `input`'s shape, `grad_weight =
matmul(input, grad_output, transpose_a=True)` into a buffer of `weight`'s
shape, each gated by `needs_input_grad`. -/
def Matmul.backward (needs_input_grad : Bool × Bool) (saved : GPUBuffer × GPUBuffer)
    (grad_output : GPUBuffer) : Option GPUBuffer × Option GPUBuffer :=
  let input := saved.1
  let weight := saved.2
  (if needs_input_grad.1 then
     some (matmul grad_output weight (Buffer input.shape) false true)
   else none,
   if needs_input_grad.2 then
     some (matmul input grad_output (Buffer weight.shape) true false)
   else none)

/-- Context carried by `Conv2D` from forward to backward: the (promoted)
stride, the group count, and the saved tensors `(x, w)`. -/
structure ConvCtx where
  stride : Int × Int
  groups : Int
  saved : GPUBuffer × GPUBuffer
deriving DecidableEq, Repr

/-- Embeds `Conv2D.forward`: an integer stride is promoted to a pair; the weight
shape is unpacked as `(cout, cin, H, W)` and the input shape as
`(bs, cin_, iy, ix)`; output spatial sizes are `oy = (iy-(H-ys))//ys`,
`ox = (ix-(W-xs))//xs`; raises when `cin*groups != cin_` and asserts
`cout % groups == 0` before dispatching to the `conv` kernel into a
buffer of shape `(bs, cout, oy, ox)`. -/
def Conv2D.forward (x w : GPUBuffer) (stride : Int ⊕ Int × Int) (groups : Int) :
    Except String (ConvCtx × GPUBuffer) := do
  let st := match stride with
    | Sum.inl s => (s, s)
    | Sum.inr p => p
  match w.shape with
  | [cout, cin, H, W] =>
    let ys := st.1
    let xs := st.2
    match x.shape with
    | [bs, cin_, iy, ix] =>
      if ys = 0 ∨ xs = 0 then throw "ZeroDivisionError" else do
      let oy := (iy - (H - ys)).fdiv ys
      let ox := (ix - (W - xs)).fdiv xs
      if cin * groups ≠ cin_ then
        throw "Exception: Input Tensor shape does not match the shape of the weights"
      else if groups = 0 then throw "ZeroDivisionError"
      else if cout % groups ≠ 0 then throw "AssertionError"
      else do
        let rcout := cout.fdiv groups
        let args : ConvArgs := ⟨H, W, groups, rcout, cin, oy, ox, iy, ix, ys, xs, bs⟩
        Except.ok (⟨st, groups, (x, w)⟩, conv x w (Buffer [bs, cout, oy, ox]) args)
    | _ => throw "ValueError: values to unpack do not match"
  | _ => throw "ValueError: values to unpack do not match"

/-- Embeds `Conv2D.backward`: unpacks the gradient, weight and input shapes,
recomputes the conv arguments, asserts the channel relations, and
dispatches `convdx` into a buffer of `x`'s shape and `convdw` into a
buffer of `w`'s shape, each gated by `needs_input_grad`. -/
def Conv2D.backward (needs_input_grad : Bool × Bool) (ctx : ConvCtx)
    (grad_output : GPUBuffer) : Except String (Option GPUBuffer × Option GPUBuffer) := do
  match grad_output.shape with
  | [_gbs, _gc, _goy, _gox] =>
    let x := ctx.saved.1
    let w := ctx.saved.2
    match w.shape with
    | [cout, cin, H, W] =>
      let ys := ctx.stride.1
      let xs := ctx.stride.2
      match x.shape with
      | [bs, cin_, iy, ix] =>
        if ys = 0 ∨ xs = 0 then throw "ZeroDivisionError" else do
        let oy := (iy - (H - ys)).fdiv ys
        let ox := (ix - (W - xs)).fdiv xs
        if cin * ctx.groups ≠ cin_ then throw "AssertionError"
        else if ctx.groups = 0 then throw "ZeroDivisionError"
        else if cout % ctx.groups ≠ 0 then throw "AssertionError"
        else do
          let rcout := cout.fdiv ctx.groups
          let args : ConvArgs := ⟨H, W, ctx.groups, rcout, cin, oy, ox, iy, ix, ys, xs, bs⟩
          Except.ok
            (if needs_input_grad.1 then
               some (convdx w grad_output (Buffer [bs, cin_, iy, ix]) args)
             else none,
             if needs_input_grad.2 then
               some (convdw x grad_output (Buffer [cout, cin, H, W]) args)
             else none)
      | _ => throw "ValueError: values to unpack do not match"
    | _ => throw "ValueError: values to unpack do not match"
  | _ => throw "ValueError: values to unpack do not match"

-- ************* predicates used by the theorems *************

/-- A buffer's contents were produced by one of the device-level
primitives (as opposed to an input, an uninitialised allocation, or a
zero-copy view of one of those). -/
def fromPrimitive : Expr → Bool
  | Expr.unary _ _ => true
  | Expr.binary _ _ _ => true
  | Expr.reduce _ _ _ => true
  | Expr.perm _ _ => true
  | Expr.islice _ _ => true
  | Expr.mm _ _ _ _ => true
  | Expr.convF _ _ _ => true
  | Expr.convDW _ _ _ => true
  | Expr.convDX _ _ _ => true
  | Expr.input _ => false
  | Expr.fresh => false

/-- A gradient slot is `none` exactly when its `needs_input_grad` flag is
false, and otherwise holds a buffer of the corresponding input's shape. -/
def gradOk (g : Option GPUBuffer) (need : Bool) (sh : List Int) : Prop :=
  (g = none ↔ need = false) ∧ ∀ b, g = some b → b.shape = sh

-- ************* supporting lemmas *************

theorem mapExcept_ok {α β : Type} (f : α → Except String β) (g : α → β) :
    ∀ l : List α, (∀ a ∈ l, f a = Except.ok (g a)) → mapExcept f l = Except.ok (l.map g) := by
  intro l
  induction l with
  | nil => intro _; rfl
  | cons a l ih =>
    intro h
    have ha := h a (by simp)
    have hl := ih (fun b hb => h b (by simp [hb]))
    simp only [mapExcept, ha, hl]
    rfl

theorem pyGet_ok_nonneg (l : List Int) (i : Int) (h0 : 0 ≤ i) (h : i < l.length) :
    pyGet l i = Except.ok (l.getD i.toNat 0) := by
  unfold pyGet
  rw [if_pos ⟨h0, h⟩]

theorem map_getD_range (l : List Int) :
    (List.range l.length).map (fun i => l.getD i 0) = l := by
  apply List.ext_getElem
  · simp
  · intro i h1 h2
    simp only [List.getElem_map, List.getElem_range]
    exact List.getD_eq_getElem l 0 h2

theorem argsort_spec (order : List Int) (n : Nat)
    (hperm : List.Perm order ((List.range n).map Int.ofNat)) :
    (argsort order).length = n ∧
    (∀ j ∈ argsort order, j < n) ∧
    (∀ k, k < n → order.getD ((argsort order).getD k 0) 0 = (k : Int)) := by
  have hlen : order.length = n := by simpa using hperm.length_eq
  set r : Nat → Nat → Prop := fun i j => order.getD i 0 ≤ order.getD j 0 with hr
  haveI : IsTotal Nat r := ⟨fun a b => le_total _ _⟩
  haveI : IsTrans Nat r := ⟨fun a b c h1 h2 => le_trans h1 h2⟩
  have hσperm : List.Perm (argsort order) (List.range order.length) :=
    List.perm_insertionSort r (List.range order.length)
  have hσlen : (argsort order).length = n := by
    rw [hσperm.length_eq, List.length_range, hlen]
  have hσmem : ∀ j ∈ argsort order, j < n := by
    intro j hj
    have := hσperm.mem_iff.mp hj
    rw [List.mem_range, hlen] at this
    exact this
  refine ⟨hσlen, hσmem, ?_⟩
  have hsorted : List.Sorted r (argsort order) :=
    List.sorted_insertionSort r (List.range order.length)
  have hms : List.Sorted (· ≤ ·) ((argsort order).map (fun i => order.getD i 0)) :=
    List.Pairwise.map _ (fun a b h => h) hsorted
  have hmp : List.Perm ((argsort order).map (fun i => order.getD i 0))
      ((List.range n).map Int.ofNat) := by
    have h1 := hσperm.map (fun i => order.getD i 0)
    rw [map_getD_range] at h1
    exact h1.trans hperm
  have hts : List.Sorted (· ≤ ·) ((List.range n).map Int.ofNat) := by
    have : List.Sorted (· < ·) ((List.range n).map (Int.ofNat)) :=
      List.Pairwise.map _ (fun a b h => Int.ofNat_lt.mpr h) (List.sorted_lt_range n)
    exact this.le_of_lt
  have heq : (argsort order).map (fun i => order.getD i 0) = (List.range n).map Int.ofNat :=
    List.eq_of_perm_of_sorted hmp hms hts
  intro k hk
  have hk1 : k < (argsort order).length := by rw [hσlen]; exact hk
  have hk2 : k < ((argsort order).map (fun i => order.getD i 0)).length := by
    simpa using hk1
  have hk3 : k < ((List.range n).map (Int.ofNat : Nat → Int)).length := by simpa using hk
  have hel : ((argsort order).map (fun i => order.getD i 0))[k]
      = ((List.range n).map (Int.ofNat : Nat → Int))[k] :=
    List.getElem_of_eq heq hk2
  have hel2 : order.getD ((argsort order)[k]) 0 = (k : Int) := by simpa using hel
  rw [List.getD_eq_getElem _ _ hk1]
  exact hel2

/-- C8: `Transpose.backward` permutes the gradient by `argsort(order)`,
the inverse permutation of the forward's `order`: for every permutation
`order` of the input's axes, the backward of a gradient of the forward
output's shape is a buffer with exactly the input's shape. -/
theorem transpose_roundtrip (x : GPUBuffer) (order : List Int)
    (hperm : List.Perm order ((List.range x.shape.length).map Int.ofNat)) :
    ∃ ret : GPUBuffer,
      Transpose.forward x order = Except.ok (order, ret) ∧
      ∀ g : GPUBuffer, g.shape = ret.shape →
        ∃ r : GPUBuffer, Transpose.backward order g = Except.ok r ∧ r.shape = x.shape := by
  have hmem : ∀ i ∈ order, 0 ≤ i ∧ i < (x.shape.length : Int) := by
    intro i hi
    have h := hperm.mem_iff.mp hi
    simp only [List.mem_map, List.mem_range] at h
    obtain ⟨k, hk, rfl⟩ := h
    exact ⟨Int.ofNat_nonneg k, Int.ofNat_lt.mpr hk⟩
  have hfwd : mapExcept (pyGet x.shape) order
      = Except.ok (order.map (fun i => x.shape.getD i.toNat 0)) := by
    apply mapExcept_ok
    intro i hi
    exact pyGet_ok_nonneg _ _ (hmem i hi).1 (hmem i hi).2
  refine ⟨perm_axis x order (Buffer (order.map (fun i => x.shape.getD i.toNat 0))), ?_, ?_⟩
  · unfold Transpose.forward
    rw [hfwd]
    rfl
  · intro g hg
    have hg' : g.shape = order.map (fun i => x.shape.getD i.toNat 0) := hg
    obtain ⟨hσlen, hσmem, hσinv⟩ := argsort_spec order x.shape.length hperm
    have hlenord : order.length = x.shape.length := by simpa using hperm.length_eq
    have hoshlen : (order.map (fun i => x.shape.getD i.toNat 0)).length = x.shape.length := by
      rw [List.length_map]; exact hlenord
    have hbk : mapExcept (pyGet g.shape) ((argsort order).map Int.ofNat)
        = Except.ok (((argsort order).map Int.ofNat).map (fun i => g.shape.getD i.toNat 0)) := by
      apply mapExcept_ok
      intro i hi
      simp only [List.mem_map] at hi
      obtain ⟨j, hj, rfl⟩ := hi
      have hjn := hσmem j hj
      apply pyGet_ok_nonneg
      · exact Int.ofNat_nonneg j
      · rw [hg', hoshlen]; exact Int.ofNat_lt.mpr hjn
    refine ⟨perm_axis g ((argsort order).map Int.ofNat)
        (Buffer (((argsort order).map Int.ofNat).map (fun i => g.shape.getD i.toNat 0))), ?_, ?_⟩
    · simp only [Transpose.backward]
      rw [hbk]
      rfl
    · show ((argsort order).map Int.ofNat).map (fun i => g.shape.getD i.toNat 0) = x.shape
      have hnsh : ((argsort order).map Int.ofNat).map (fun i => g.shape.getD i.toNat 0)
          = (argsort order).map
              (fun j => (order.map (fun i => x.shape.getD i.toNat 0)).getD j 0) := by
        rw [List.map_map]
        apply List.map_congr_left
        intro j _
        simp [hg']
      rw [hnsh]
      apply List.ext_getElem
      · rw [List.length_map, hσlen]
      · intro k h1 h2
        simp only [List.getElem_map]
        have hklt : k < x.shape.length := h2
        have hkσ : k < (argsort order).length := by rw [hσlen]; exact hklt
        have hjlt : (argsort order)[k] < x.shape.length := hσmem _ (List.getElem_mem hkσ)
        have hjord : (argsort order)[k] < order.length := by rw [hlenord]; exact hjlt
        have hjosh : (argsort order)[k] < (order.map (fun i => x.shape.getD i.toNat 0)).length := by
          rw [hoshlen]; exact hjlt
        have e1 : (order.map (fun i => x.shape.getD i.toNat 0)).getD ((argsort order)[k]) 0
            = x.shape.getD ((order[(argsort order)[k]])).toNat 0 := by
          rw [List.getD_eq_getElem _ _ hjosh]
          simp
        have e2 : order[(argsort order)[k]] = (k : Int) := by
          have h3 := hσinv k hklt
          rw [List.getD_eq_getElem _ _ hkσ] at h3
          rw [List.getD_eq_getElem _ _ hjord] at h3
          exact h3
        rw [e1, e2]
        simp only [Int.toNat_ofNat]
        exact List.getD_eq_getElem _ _ h2

theorem bind_ok_eq {α β : Type} (a : α) (f : α → Except String β) :
    (Except.ok a >>= f) = f a := rfl

theorem bind_error_eq {α β : Type} (e : String) (f : α → Except String β) :
    ((Except.error e : Except String α) >>= f) = Except.error e := rfl

theorem pyGet_ok_neg (l : List Int) (i : Int) (h0 : i < 0) (h : -(l.length : Int) ≤ i) :
    pyGet l i = Except.ok (l.getD (i + l.length).toNat 0) := by
  unfold pyGet
  rw [if_neg (by omega), if_pos ⟨h, h0⟩]

theorem pyGet_last (l : List Int) (a : Int) : pyGet (l ++ [a]) (-1) = Except.ok a := by
  rw [pyGet_ok_neg _ _ (by norm_num) (by simp)]
  have h1 : ((-1 : Int) + ((l ++ [a]).length : Int)).toNat = l.length := by simp
  rw [h1, List.getD_append_right _ _ _ _ (Nat.le_refl _)]
  simp

theorem pyGet_neg_two (l : List Int) (a b : Int) : pyGet (l ++ [a, b]) (-2) = Except.ok a := by
  rw [pyGet_ok_neg _ _ (by norm_num) (by simp)]
  have h1 : ((-2 : Int) + ((l ++ [a, b]).length : Int)).toNat = l.length := by simp
  rw [h1, List.getD_append_right _ _ _ _ (Nat.le_refl _)]
  simp

theorem reduce_shape_spec (shape : List Int) (ax : List Int)
    (h : ∀ i ∈ ax, 0 ≤ i ∧ i < (shape.length : Int)) :
    reduce_shape shape (some ax)
      = Except.ok ((List.range shape.length).map
          (fun (j : Nat) => if (j : Int) ∈ ax then (1 : Int) else shape.getD j 0)) := by
  have hidx : mapExcept (npIdx shape.length) ax = Except.ok (ax.map Int.toNat) := by
    apply mapExcept_ok
    intro i hi
    unfold npIdx
    rw [if_pos ⟨(h i hi).1, (h i hi).2⟩]
  simp only [reduce_shape]
  rw [hidx, bind_ok_eq]
  congr 1
  apply List.map_congr_left
  intro j hj
  have hmemiff : j ∈ ax.map Int.toNat ↔ (j : Int) ∈ ax := by
    constructor
    · intro hm
      simp only [List.mem_map] at hm
      obtain ⟨i, hi, hij⟩ := hm
      have : i = (j : Int) := by
        have := (h i hi).1
        omega
      rw [← this]; exact hi
    · intro hm
      simp only [List.mem_map]
      exact ⟨(j : Int), hm, by omega⟩
  exact if_congr hmemiff rfl rfl

/-- C1: for every pair of binary inputs, `Add.backward` returns the
gradient unbroadcast (reduce-summed via `reduce_op` with `out += a`) to
each saved input shape, and `Sub.backward` returns the unbroadcast
gradient for `x` and the unbroadcast elementwise negation (`unary_op`
with `-a`) for `y`. -/
theorem add_sub_backward_gradients :
    ∀ x y g : GPUBuffer,
      Add.backward (true, true) (Add.forward x y).1 g
        = (some (unbroadcast g x.shape), some (unbroadcast g y.shape)) ∧
      Sub.backward (true, true) (Sub.forward x y).1 g
        = (some (unbroadcast g x.shape),
           some (unbroadcast (unary_op "-a" g (Buffer g.shape)) y.shape)) ∧
      unbroadcast g x.shape = reduce_op "out += a" g (Buffer x.shape) "0.0" := by
  intro x y g
  exact ⟨rfl, rfl, rfl⟩

/-- C2: the forward of each elementwise binary operation returns a buffer
whose shape is `binary_broadcast` of the two input shapes. -/
theorem binary_forward_broadcast_shape :
    ∀ x y : GPUBuffer,
      (Add.forward x y).2.shape = binary_broadcast x.shape y.shape ∧
      (Sub.forward x y).2.shape = binary_broadcast x.shape y.shape ∧
      (Mul.forward x y).2.shape = binary_broadcast x.shape y.shape ∧
      (Pow.forward x y).2.shape = binary_broadcast x.shape y.shape := by
  intro x y
  exact ⟨rfl, rfl, rfl, rfl⟩

/-- C9: calling `Sum.forward` or `Max.forward` with `axis=None` raises a
`TypeError` in `reduce_shape` (from `list(None)`) before any device
primitive is invoked: the forward returns an error and no buffer. -/
theorem reduce_axis_none_raises :
    ∀ input : GPUBuffer,
      Sum.forward input none
        = Except.error "TypeError: NoneType object is not iterable" ∧
      Max.forward input none
        = Except.error "TypeError: NoneType object is not iterable" := by
  intro input
  exact ⟨rfl, rfl⟩

/-- C5 counterexample: `Reshape.forward` returns a buffer that is a
zero-copy view of its input (`Buffer(shape, hostbuf=x)`), not the result
of any device-level primitive. -/
theorem reshape_forward_not_primitive :
    Reshape.forward ⟨[2, 3], Expr.input 0⟩ [3, 2]
      = Except.ok ([2, 3], ⟨[3, 2], Expr.input 0⟩) ∧
    fromPrimitive (Expr.input 0) = false := by
  exact ⟨rfl, rfl⟩

/-- C4 counterexample: `Conv2D.forward` raises an exception (it has an
error path) when the input channel count does not match
`cin * groups`. -/
theorem conv2d_forward_raises :
    Conv2D.forward ⟨[1, 3, 4, 4], Expr.input 0⟩ ⟨[1, 2, 2, 2], Expr.input 1⟩
        (Sum.inl 1) 1
      = Except.error "Exception: Input Tensor shape does not match the shape of the weights" := by
  rfl

/-- C4 amended: the operator layer contains no failure handling or retry
logic, but its forwards do contain error paths: `Conv2D.forward` raises
when `cin * groups` differs from the input channel dimension, and
`Reshape.forward` and `Matmul.forward` assert shape preconditions,
raising `AssertionError` on mismatch. -/
theorem forward_error_paths :
    (∀ (x w : GPUBuffer) (ys xs groups bs cin_ iy ix cout cin H W : Int),
       x.shape = [bs, cin_, iy, ix] → w.shape = [cout, cin, H, W] →
       ys ≠ 0 → xs ≠ 0 → cin * groups ≠ cin_ →
       Conv2D.forward x w (Sum.inr (ys, xs)) groups
         = Except.error "Exception: Input Tensor shape does not match the shape of the weights") ∧
    (∀ (x : GPUBuffer) (shape : List Int),
       (∀ s ∈ shape, s ≠ -1) → prod shape ≠ prod x.shape →
       Reshape.forward x shape = Except.error "AssertionError") ∧
    (∀ (input weight : GPUBuffer) (li lw : List Int) (k p m : Int),
       input.shape = li ++ [k] → weight.shape = lw ++ [p, m] → k ≠ p →
       Matmul.forward input weight = Except.error "AssertionError") := by
  refine ⟨?_, ?_, ?_⟩
  · intro x w ys xs groups bs cin_ iy ix cout cin H W hx hw hys hxs hcg
    simp [Conv2D.forward, hx, hw, hys, hxs, hcg]
    rfl
  · intro x shape hno hprod
    have hmap : shape.map
        (fun s => if s = -1 then (-(prod x.shape)).fdiv (prod shape) else s) = shape := by
      have := List.map_congr_left
        (fun s hs => if_neg (hno s hs) :
          ∀ s ∈ shape, (if s = -1 then (-(prod x.shape)).fdiv (prod shape) else s) = s)
      rw [this]
      simp
    simp only [Reshape.forward, hmap, Buffer.hostbuf]
    rw [if_neg (fun hh => hprod hh.symm)]
    rfl
  · intro input weight li lw k p m hin hw hne
    unfold Matmul.forward
    rw [hin, hw, pyGet_last, pyGet_neg_two, bind_ok_eq, bind_ok_eq, if_neg hne]
    rfl

/-- C5 amended: every operator forward except `Reshape.forward` produces
its result by invoking one of the device-level primitives (`unary_op`,
`binary_op`, `reduce_op`, `perm_axis`, `inner_slice`, `matmul`, or the
conv family); `Reshape.forward` instead returns a zero-copy buffer
aliasing its input's storage. -/
theorem forwards_invoke_primitives :
    (∀ (fop : String) (input : GPUBuffer),
       fromPrimitive (UnaryOp.forward fop input).2.data = true) ∧
    (∀ x y : GPUBuffer, fromPrimitive (Add.forward x y).2.data = true) ∧
    (∀ x y : GPUBuffer, fromPrimitive (Sub.forward x y).2.data = true) ∧
    (∀ x y : GPUBuffer, fromPrimitive (Mul.forward x y).2.data = true) ∧
    (∀ x y : GPUBuffer, fromPrimitive (Pow.forward x y).2.data = true) ∧
    (∀ input axis s r, Sum.forward input axis = Except.ok (s, r) →
       fromPrimitive r.data = true) ∧
    (∀ input axis s r, Max.forward input axis = Except.ok (s, r) →
       fromPrimitive r.data = true) ∧
    (∀ x order s r, Transpose.forward x order = Except.ok (s, r) →
       fromPrimitive r.data = true) ∧
    (∀ x arg s r, Slice.forward x arg = Except.ok (s, r) →
       fromPrimitive r.data = true) ∧
    (∀ input weight s r, Matmul.forward input weight = Except.ok (s, r) →
       fromPrimitive r.data = true) ∧
    (∀ x w stride groups c r, Conv2D.forward x w stride groups = Except.ok (c, r) →
       fromPrimitive r.data = true) ∧
    (∀ x shape s r, Reshape.forward x shape = Except.ok (s, r) → r.data = x.data) := by
  refine ⟨fun _ _ => rfl, fun _ _ => rfl, fun _ _ => rfl, fun _ _ => rfl, fun _ _ => rfl,
    ?_, ?_, ?_, ?_, ?_, ?_, ?_⟩
  · intro input axis s r h
    unfold Sum.forward at h
    cases hos : reduce_shape input.shape axis with
    | error e => rw [hos, bind_error_eq] at h; exact absurd h (by simp)
    | ok os =>
      rw [hos, bind_ok_eq] at h
      simp only [Except.ok.injEq, Prod.mk.injEq] at h
      rw [← h.2]
      rfl
  · intro input axis s r h
    unfold Max.forward at h
    cases hos : reduce_shape input.shape axis with
    | error e => rw [hos, bind_error_eq] at h; exact absurd h (by simp)
    | ok os =>
      rw [hos, bind_ok_eq] at h
      simp only [Except.ok.injEq, Prod.mk.injEq] at h
      rw [← h.2]
      rfl
  · intro x order s r h
    unfold Transpose.forward at h
    cases hos : mapExcept (pyGet x.shape) order with
    | error e => rw [hos, bind_error_eq] at h; exact absurd h (by simp)
    | ok osh =>
      rw [hos, bind_ok_eq] at h
      simp only [Except.ok.injEq, Prod.mk.injEq] at h
      rw [← h.2]
      rfl
  · intro x arg s r h
    unfold Slice.forward at h
    simp only [Except.ok.injEq, Prod.mk.injEq] at h
    rw [← h.2]
    rfl
  · intro input weight s r h
    unfold Matmul.forward at h
    cases ha : pyGet input.shape (-1) with
    | error e => rw [ha, bind_error_eq] at h; exact absurd h (by simp)
    | ok a =>
      rw [ha, bind_ok_eq] at h
      cases hb : pyGet weight.shape (-2) with
      | error e => rw [hb, bind_error_eq] at h; exact absurd h (by simp)
      | ok b =>
        rw [hb, bind_ok_eq] at h
        by_cases hab : a = b
        · rw [if_pos hab] at h
          cases hwl : pyGet weight.shape (-1) with
          | error e => rw [hwl, bind_error_eq] at h; exact absurd h (by simp)
          | ok wl =>
            rw [hwl, bind_ok_eq] at h
            simp only [Except.ok.injEq, Prod.mk.injEq] at h
            rw [← h.2]
            rfl
        · rw [if_neg hab] at h
          exact absurd h (by simp)
  · intro x w stride groups c r h
    unfold Conv2D.forward at h
    repeat' split at h
    all_goals simp_all [conv, fromPrimitive, ite_eq_iff, throw, throwThe, MonadExceptOf.throw]
    all_goals rw [← h.2.2]
  · intro x shape s r h
    simp only [Reshape.forward] at h
    split at h
    · simp only [Except.ok.injEq, Prod.mk.injEq] at h
      rw [← h.2]
      rfl
    · exact absurd h (by simp)

/-- C6: with a non-None axis of valid dimension indices, `Sum.forward`
and `Max.forward` return a buffer whose shape is the input shape with the
listed dimensions replaced by 1 and all others unchanged. -/
theorem reduce_forward_keepdims_shape :
    ∀ (input : GPUBuffer) (ax : List Int),
      (∀ i ∈ ax, 0 ≤ i ∧ i < (input.shape.length : Int)) →
      (∃ s r, Sum.forward input (some ax) = Except.ok (s, r) ∧
         r.shape.length = input.shape.length ∧
         ∀ j, j < input.shape.length →
           r.shape.getD j 0 = if (j : Int) ∈ ax then 1 else input.shape.getD j 0) ∧
      (∃ s r, Max.forward input (some ax) = Except.ok (s, r) ∧
         r.shape.length = input.shape.length ∧
         ∀ j, j < input.shape.length →
           r.shape.getD j 0 = if (j : Int) ∈ ax then 1 else input.shape.getD j 0) := by
  intro input ax h
  have hrs := reduce_shape_spec input.shape ax h
  constructor
  · refine ⟨input.shape,
      reduce_op "out += a" input
        (Buffer ((List.range input.shape.length).map
          (fun (j : Nat) => if (j : Int) ∈ ax then (1 : Int) else input.shape.getD j 0))) "0.0",
      ?_, ?_, ?_⟩
    · unfold Sum.forward
      rw [hrs, bind_ok_eq]
    · simp [reduce_op, Buffer]
    · intro j hj
      show ((List.range input.shape.length).map
          (fun (j : Nat) => if (j : Int) ∈ ax then (1 : Int) else input.shape.getD j 0)).getD j 0 = _
      rw [List.getD_eq_getElem _ _ (by simpa using hj)]
      simp
  · refine ⟨(input, some ax,
      reduce_op "out = max(a,out)" input
        (Buffer ((List.range input.shape.length).map
          (fun (j : Nat) => if (j : Int) ∈ ax then (1 : Int) else input.shape.getD j 0))) "-INFINITY"),
      reduce_op "out = max(a,out)" input
        (Buffer ((List.range input.shape.length).map
          (fun (j : Nat) => if (j : Int) ∈ ax then (1 : Int) else input.shape.getD j 0))) "-INFINITY",
      ?_, ?_, ?_⟩
    · unfold Max.forward
      rw [hrs, bind_ok_eq]
    · simp [reduce_op, Buffer]
    · intro j hj
      show ((List.range input.shape.length).map
          (fun (j : Nat) => if (j : Int) ∈ ax then (1 : Int) else input.shape.getD j 0)).getD j 0 = _
      rw [List.getD_eq_getElem _ _ (by simpa using hj)]
      simp

/-- C7: when `input.shape[-1] == weight.shape[-2]`, `Matmul.forward`
returns a buffer of shape `input.shape[0:-1] + [weight.shape[-1]]` with
both operands saved, and `Matmul.backward` returns
`matmul(grad_output, weight, transpose_b=True)` of `input`'s shape and
`matmul(input, grad_output, transpose_a=True)` of `weight`'s shape. -/
theorem matmul_forward_backward_shapes :
    ∀ (input weight : GPUBuffer) (li lw : List Int) (k m : Int),
      input.shape = li ++ [k] → weight.shape = lw ++ [k, m] →
      (∃ r, Matmul.forward input weight = Except.ok ((input, weight), r) ∧
         r.shape = input.shape.dropLast ++ [m]) ∧
      ∀ g : GPUBuffer,
        Matmul.backward (true, true) (input, weight) g
          = (some (matmul g weight (Buffer input.shape) false true),
             some (matmul input g (Buffer weight.shape) true false)) ∧
        (matmul g weight (Buffer input.shape) false true).shape = input.shape ∧
        (matmul input g (Buffer weight.shape) true false).shape = weight.shape := by
  intro input weight li lw k m hin hw
  constructor
  · have h1 : pyGet input.shape (-1) = Except.ok k := by rw [hin, pyGet_last]
    have h2 : pyGet weight.shape (-2) = Except.ok k := by rw [hw]; exact pyGet_neg_two lw k m
    have h3 : pyGet weight.shape (-1) = Except.ok m := by
      rw [hw, show lw ++ [k, m] = (lw ++ [k]) ++ [m] by simp, pyGet_last]
    refine ⟨matmul input weight (Buffer (input.shape.dropLast ++ [m])) false false, ?_, rfl⟩
    unfold Matmul.forward
    rw [h1, bind_ok_eq, h2, bind_ok_eq, if_pos rfl, h3, bind_ok_eq]
  · intro g
    exact ⟨rfl, rfl, rfl⟩

/-- C3: for an input of shape `(bs, cin_, iy, ix)` and weight of shape
`(cout, cin, H, W)` with `cin * groups == cin_` and `cout` divisible by
(nonzero) `groups` and nonzero stride `(ys, xs)`, `Conv2D.forward`
returns a buffer of shape `(bs, cout, (iy-(H-ys))//ys, (ix-(W-xs))//xs)`;
an integer stride `s` is first promoted to the pair `(s, s)`. -/
theorem conv2d_forward_output_shape :
    ∀ (x w : GPUBuffer) (s ys xs groups bs cin_ iy ix cout cin H W : Int),
      x.shape = [bs, cin_, iy, ix] → w.shape = [cout, cin, H, W] →
      cin * groups = cin_ → cout % groups = 0 → groups ≠ 0 → ys ≠ 0 → xs ≠ 0 →
      (∃ c r, Conv2D.forward x w (Sum.inr (ys, xs)) groups = Except.ok (c, r) ∧
         r.shape = [bs, cout, (iy - (H - ys)).fdiv ys, (ix - (W - xs)).fdiv xs]) ∧
      Conv2D.forward x w (Sum.inl s) groups = Conv2D.forward x w (Sum.inr (s, s)) groups := by
  intro x w s ys xs groups bs cin_ iy ix cout cin H W hx hw hcg hmod hg0 hys hxs
  constructor
  · have hfwd : Conv2D.forward x w (Sum.inr (ys, xs)) groups
        = Except.ok (⟨(ys, xs), groups, (x, w)⟩,
            conv x w (Buffer [bs, cout, (iy - (H - ys)).fdiv ys, (ix - (W - xs)).fdiv xs])
              ⟨H, W, groups, cout.fdiv groups, cin, (iy - (H - ys)).fdiv ys,
                (ix - (W - xs)).fdiv xs, iy, ix, ys, xs, bs⟩) := by
      simp only [Conv2D.forward, hx, hw]
      rw [if_neg (by simp [hys, hxs]), if_neg (fun hh => hh hcg), if_neg hg0,
        if_neg (fun hh => hh hmod)]
    exact ⟨_, _, hfwd, rfl⟩
  · rfl

/-- C10: for every two-input operation (Add, Sub, Mul, Pow, Matmul,
Conv2D), the backward returns `none` in position `i` exactly when
`needs_input_grad[i]` is false, and otherwise a buffer with the same
shape as input `i`. -/
theorem backward_grad_gating :
    (∀ (nig : Bool × Bool) (x y g : GPUBuffer),
       gradOk (Add.backward nig (Add.forward x y).1 g).1 nig.1 x.shape ∧
       gradOk (Add.backward nig (Add.forward x y).1 g).2 nig.2 y.shape) ∧
    (∀ (nig : Bool × Bool) (x y g : GPUBuffer),
       gradOk (Sub.backward nig (Sub.forward x y).1 g).1 nig.1 x.shape ∧
       gradOk (Sub.backward nig (Sub.forward x y).1 g).2 nig.2 y.shape) ∧
    (∀ (nig : Bool × Bool) (x y g : GPUBuffer),
       gradOk (Mul.backward nig (Mul.forward x y).1 g).1 nig.1 x.shape ∧
       gradOk (Mul.backward nig (Mul.forward x y).1 g).2 nig.2 y.shape) ∧
    (∀ (nig : Bool × Bool) (x y g : GPUBuffer),
       gradOk (Pow.backward nig (Pow.forward x y).1 g).1 nig.1 x.shape ∧
       gradOk (Pow.backward nig (Pow.forward x y).1 g).2 nig.2 y.shape) ∧
    (∀ (nig : Bool × Bool) (input weight g : GPUBuffer),
       gradOk (Matmul.backward nig (input, weight) g).1 nig.1 input.shape ∧
       gradOk (Matmul.backward nig (input, weight) g).2 nig.2 weight.shape) ∧
    (∀ (nig : Bool × Bool) (ctx : ConvCtx) (x w g : GPUBuffer)
       (ys xs bs cin_ iy ix cout cin H W ga gb gc gd : Int),
       ctx.saved = (x, w) → ctx.stride = (ys, xs) →
       x.shape = [bs, cin_, iy, ix] → w.shape = [cout, cin, H, W] →
       g.shape = [ga, gb, gc, gd] →
       ys ≠ 0 → xs ≠ 0 → cin * ctx.groups = cin_ → ctx.groups ≠ 0 →
       cout % ctx.groups = 0 →
       ∃ dx dw, Conv2D.backward nig ctx g = Except.ok (dx, dw) ∧
         gradOk dx nig.1 x.shape ∧ gradOk dw nig.2 w.shape) := by
  refine ⟨?_, ?_, ?_, ?_, ?_, ?_⟩
  · intro nig x y g
    obtain ⟨n1, n2⟩ := nig
    cases n1 <;> cases n2 <;>
      simp [gradOk, Add.backward, Add.forward, unbroadcast, reduce_op, Buffer]
  · intro nig x y g
    obtain ⟨n1, n2⟩ := nig
    cases n1 <;> cases n2 <;>
      simp [gradOk, Sub.backward, Sub.forward, unbroadcast, reduce_op, Buffer]
  · intro nig x y g
    obtain ⟨n1, n2⟩ := nig
    cases n1 <;> cases n2 <;>
      simp [gradOk, Mul.backward, Mul.forward, unbroadcast, reduce_op, Buffer]
  · intro nig x y g
    obtain ⟨n1, n2⟩ := nig
    cases n1 <;> cases n2 <;>
      simp [gradOk, Pow.backward, Pow.forward, unbroadcast, reduce_op, Buffer]
  · intro nig input weight g
    obtain ⟨n1, n2⟩ := nig
    cases n1 <;> cases n2 <;>
      simp [gradOk, Matmul.backward, matmul, Buffer]
  · intro nig ctx x w g ys xs bs cin_ iy ix cout cin H W ga gb gc gd
      hsv hst hx hw hgs hys hxs hcg hg0 hmod
    have hbk : Conv2D.backward nig ctx g = Except.ok
        (if nig.1 then
           some (convdx w g (Buffer [bs, cin_, iy, ix])
             ⟨H, W, ctx.groups, cout.fdiv ctx.groups, cin, (iy - (H - ys)).fdiv ys,
               (ix - (W - xs)).fdiv xs, iy, ix, ys, xs, bs⟩)
         else none,
         if nig.2 then
           some (convdw x g (Buffer [cout, cin, H, W])
             ⟨H, W, ctx.groups, cout.fdiv ctx.groups, cin, (iy - (H - ys)).fdiv ys,
               (ix - (W - xs)).fdiv xs, iy, ix, ys, xs, bs⟩)
         else none) := by
      simp only [Conv2D.backward, hgs, hsv, hst, hx, hw]
      rw [if_neg (by simp [hys, hxs]), if_neg (fun hh => hh hcg), if_neg hg0,
        if_neg (fun hh => hh hmod)]
    refine ⟨_, _, hbk, ?_, ?_⟩ <;> obtain ⟨n1, n2⟩ := nig <;> cases n1 <;> cases n2 <;>
      simp [gradOk, convdx, convdw, Buffer, hx, hw]

theorem conv2d_forward_output_shape_witness :
    (∃ c r, Conv2D.forward ⟨[1, 3, 4, 4], Expr.input 0⟩ ⟨[4, 3, 2, 2], Expr.input 1⟩
        (Sum.inr (1, 1)) 1 = Except.ok (c, r) ∧
       r.shape = [1, 4, ((4 : Int) - (2 - 1)).fdiv 1, ((4 : Int) - (2 - 1)).fdiv 1]) ∧
    Conv2D.forward ⟨[1, 3, 4, 4], Expr.input 0⟩ ⟨[4, 3, 2, 2], Expr.input 1⟩ (Sum.inl 1) 1
      = Conv2D.forward ⟨[1, 3, 4, 4], Expr.input 0⟩ ⟨[4, 3, 2, 2], Expr.input 1⟩
          (Sum.inr (1, 1)) 1 :=
  conv2d_forward_output_shape _ _ 1 1 1 1 1 3 4 4 4 3 2 2 rfl rfl (by decide) (by decide)
    (by decide) (by decide) (by decide)

theorem forward_error_paths_witness :
    Conv2D.forward ⟨[1, 3, 4, 4], Expr.input 0⟩ ⟨[1, 2, 2, 2], Expr.input 1⟩
        (Sum.inr (1, 1)) 1
      = Except.error "Exception: Input Tensor shape does not match the shape of the weights" ∧
    Reshape.forward ⟨[2, 3], Expr.input 0⟩ [4] = Except.error "AssertionError" ∧
    Matmul.forward ⟨[2, 3], Expr.input 0⟩ ⟨[4, 5], Expr.input 1⟩
      = Except.error "AssertionError" :=
  ⟨forward_error_paths.1 _ _ 1 1 1 1 3 4 4 1 2 2 2 rfl rfl (by decide) (by decide) (by decide),
   forward_error_paths.2.1 _ [4] (by decide) (by decide),
   forward_error_paths.2.2 _ _ [2] [] 3 4 5 rfl rfl (by decide)⟩

theorem forwards_invoke_primitives_witness :
    fromPrimitive (Expr.reduce "out += a" (Expr.input 0) "0.0") = true ∧
    (⟨[3, 2], Expr.input 0⟩ : GPUBuffer).data = (⟨[2, 3], Expr.input 0⟩ : GPUBuffer).data :=
  ⟨forwards_invoke_primitives.2.2.2.2.2.1 ⟨[2, 3], Expr.input 0⟩ (some [0]) [2, 3]
      ⟨[1, 3], Expr.reduce "out += a" (Expr.input 0) "0.0"⟩ rfl,
   forwards_invoke_primitives.2.2.2.2.2.2.2.2.2.2.2 ⟨[2, 3], Expr.input 0⟩ [3, 2] [2, 3]
      ⟨[3, 2], Expr.input 0⟩ rfl⟩

theorem reduce_forward_keepdims_shape_witness :
    (∃ s r, Sum.forward ⟨[2, 3], Expr.input 0⟩ (some [0]) = Except.ok (s, r) ∧
       r.shape.length = ([2, 3] : List Int).length ∧
       ∀ j, j < ([2, 3] : List Int).length →
         r.shape.getD j 0 = if (j : Int) ∈ [(0 : Int)] then 1
           else ([2, 3] : List Int).getD j 0) ∧
    (∃ s r, Max.forward ⟨[2, 3], Expr.input 0⟩ (some [0]) = Except.ok (s, r) ∧
       r.shape.length = ([2, 3] : List Int).length ∧
       ∀ j, j < ([2, 3] : List Int).length →
         r.shape.getD j 0 = if (j : Int) ∈ [(0 : Int)] then 1
           else ([2, 3] : List Int).getD j 0) :=
  reduce_forward_keepdims_shape ⟨[2, 3], Expr.input 0⟩ [0] (by decide)

theorem matmul_forward_backward_shapes_witness :
    (∃ r, Matmul.forward ⟨[2, 3], Expr.input 0⟩ ⟨[3, 5], Expr.input 1⟩
        = Except.ok ((⟨[2, 3], Expr.input 0⟩, ⟨[3, 5], Expr.input 1⟩), r) ∧
       r.shape = ([2, 3] : List Int).dropLast ++ [5]) ∧
    ∀ g : GPUBuffer,
      Matmul.backward (true, true) (⟨[2, 3], Expr.input 0⟩, ⟨[3, 5], Expr.input 1⟩) g
        = (some (matmul g ⟨[3, 5], Expr.input 1⟩ (Buffer [2, 3]) false true),
           some (matmul ⟨[2, 3], Expr.input 0⟩ g (Buffer [3, 5]) true false)) ∧
      (matmul g ⟨[3, 5], Expr.input 1⟩ (Buffer [2, 3]) false true).shape = [2, 3] ∧
      (matmul ⟨[2, 3], Expr.input 0⟩ g (Buffer [3, 5]) true false).shape = [3, 5] :=
  matmul_forward_backward_shapes _ _ [2] [] 3 5 rfl rfl

theorem transpose_roundtrip_witness :
    ∃ ret : GPUBuffer,
      Transpose.forward ⟨[2, 3, 4], Expr.input 0⟩ [2, 0, 1] = Except.ok ([2, 0, 1], ret) ∧
      ∀ g : GPUBuffer, g.shape = ret.shape →
        ∃ r : GPUBuffer, Transpose.backward [2, 0, 1] g = Except.ok r ∧ r.shape = [2, 3, 4] :=
  transpose_roundtrip ⟨[2, 3, 4], Expr.input 0⟩ [2, 0, 1] (by decide)

theorem backward_grad_gating_witness :
    ∃ dx dw, Conv2D.backward (true, true)
        ⟨(1, 1), 1, (⟨[1, 3, 4, 4], Expr.input 0⟩, ⟨[4, 3, 2, 2], Expr.input 1⟩)⟩
        ⟨[1, 4, 3, 3], Expr.input 2⟩ = Except.ok (dx, dw) ∧
      gradOk dx true [1, 3, 4, 4] ∧ gradOk dw true [4, 3, 2, 2] :=
  backward_grad_gating.2.2.2.2.2 (true, true)
    ⟨(1, 1), 1, (⟨[1, 3, 4, 4], Expr.input 0⟩, ⟨[4, 3, 2, 2], Expr.input 1⟩)⟩
    ⟨[1, 3, 4, 4], Expr.input 0⟩ ⟨[4, 3, 2, 2], Expr.input 1⟩ ⟨[1, 4, 3, 3], Expr.input 2⟩
    1 1 1 3 4 4 4 3 2 2 1 4 3 3 rfl rfl rfl rfl rfl (by decide) (by decide) (by decide)
    (by decide) (by decide)

end TinyGrad
